import Mathlib

/-!
Shallow embedding of the rocSPARSE triangular-solve protocol sources:
the coosm analysis entry point (quickreturn / checkarg / core / template
cascade), the check_matrix_gebsc impl wrappers, the client-side matrix
generators (gen_2d_laplacian, rocsparse_init_csr / rocsparse_init_index)
and the spec's level-schedule builder.

Pointers are modelled as `Option` values (`none` = null), machine
integers as `Int` with explicit two's-complement truncation where the
source casts, enum arguments as `Option` of the enum (`none` = an
out-of-range raw value), and the GPU-side collaborator kernels
(coo2csr conversion, csrsm analysis) as oracle functions recorded in a
call trace.
-/

/-- The rocSPARSE status codes used in the sources: the closed public set
plus the internal `rocsparse_status_continue` pipeline sentinel. -/
inductive rocsparse_status where
  | success
  | invalid_handle
  | invalid_pointer
  | invalid_size
  | invalid_value
  | memory_error
  | internal_error
  | not_implemented
  | status_continue
deriving DecidableEq, Repr

/-- The closed set of public status codes from the spec's error-reporting
contract (success, invalid-handle, invalid-value, invalid-pointer,
invalid-size, memory-error, not-implemented, internal-error). -/
def rocsparse_public_statuses : List rocsparse_status :=
  [rocsparse_status.success, rocsparse_status.invalid_handle,
   rocsparse_status.invalid_value, rocsparse_status.invalid_pointer,
   rocsparse_status.invalid_size, rocsparse_status.memory_error,
   rocsparse_status.not_implemented, rocsparse_status.internal_error]

inductive rocsparse_operation where
  | op_none
  | op_transpose
  | op_conjugate_transpose
deriving DecidableEq, Repr

inductive rocsparse_matrix_type where
  | general
  | symmetric
  | hermitian
  | triangular
deriving DecidableEq, Repr

inductive rocsparse_storage_mode where
  | sorted
  | unsorted
deriving DecidableEq, Repr

inductive rocsparse_index_base where
  | base_zero
  | base_one
deriving DecidableEq, Repr

inductive rocsparse_analysis_policy where
  | reuse
  | force
deriving DecidableEq, Repr

inductive rocsparse_solve_policy where
  | auto
deriving DecidableEq, Repr

/-- The matrix descriptor fields read by the coosm analysis routine. -/
structure rocsparse_mat_descr where
  type : rocsparse_matrix_type
  storage_mode : rocsparse_storage_mode
  base : rocsparse_index_base
deriving DecidableEq, Repr

/-- The argument tuple of `rocsparse_coosm_analysis_template`.  Enum
arguments are `Option` values, `none` standing for an out-of-range raw
enum value; pointer arguments are `Option` values, `none` standing for a
null pointer.  `idx32` records whether the template index parameter `I`
is `int32_t` (true) or `int64_t` (false). -/
structure CoosmArgs where
  handle : Option Unit
  trans_A : Option rocsparse_operation
  trans_B : Option rocsparse_operation
  m : Int
  nrhs : Int
  nnz : Int
  alpha : Option Unit
  descr : Option rocsparse_mat_descr
  coo_val : Option (List Int)
  coo_row_ind : Option (List Int)
  coo_col_ind : Option (List Int)
  B : Option Unit
  ldb : Int
  info : Option Unit
  analysis : Option rocsparse_analysis_policy
  solve : Option rocsparse_solve_policy
  temp_buffer : Option Unit
  idx32 : Bool

/-- `rocsparse_coosm_analysis_quickreturn`: succeed trivially on a
zero-sized problem, otherwise hand control on with the continue
sentinel. -/
def rocsparse_coosm_analysis_quickreturn (a : CoosmArgs) : rocsparse_status :=
  if a.m = 0 ∨ a.nrhs = 0 then rocsparse_status.success
  else rocsparse_status.status_continue

/-- The first validation block of `rocsparse_coosm_analysis_checkarg`
(the checks issued before the embedded quickreturn call): handle, the
two operation enums, the three sizes, the descriptor with its type and
storage mode, the info pointer and the two policy enums.  The
`ROCSPARSE_CHECKARG_*` macro semantics (each check reporting its
distinct error kind and returning immediately) are modelled from the
spec, the macros themselves (definitions.h) being outside the excerpt. -/
def rocsparse_coosm_analysis_precheck (a : CoosmArgs) : rocsparse_status :=
  if a.handle = none then rocsparse_status.invalid_handle
  else if a.trans_A = none then rocsparse_status.invalid_value
  else if a.trans_B = none then rocsparse_status.invalid_value
  else if a.m < 0 then rocsparse_status.invalid_size
  else if a.nrhs < 0 then rocsparse_status.invalid_size
  else if a.nnz < 0 then rocsparse_status.invalid_size
  else
    match a.descr with
    | none => rocsparse_status.invalid_pointer
    | some d =>
      if d.type ≠ rocsparse_matrix_type.general then rocsparse_status.not_implemented
      else if d.storage_mode ≠ rocsparse_storage_mode.sorted then rocsparse_status.not_implemented
      else if a.info = none then rocsparse_status.invalid_pointer
      else if a.analysis = none then rocsparse_status.invalid_value
      else if a.solve = none then rocsparse_status.invalid_value
      else rocsparse_status.status_continue

/-- The pointer checks of `rocsparse_coosm_analysis_checkarg` issued
after the embedded quickreturn call: alpha, the three coo arrays (null
being an error only when nnz is nonzero), B and the temp buffer. -/
def rocsparse_coosm_analysis_postcheck (a : CoosmArgs) : rocsparse_status :=
  if a.alpha = none then rocsparse_status.invalid_pointer
  else if a.nnz ≠ 0 ∧ a.coo_val = none then rocsparse_status.invalid_pointer
  else if a.nnz ≠ 0 ∧ a.coo_row_ind = none then rocsparse_status.invalid_pointer
  else if a.nnz ≠ 0 ∧ a.coo_col_ind = none then rocsparse_status.invalid_pointer
  else if a.B = none then rocsparse_status.invalid_pointer
  else if a.temp_buffer = none then rocsparse_status.invalid_pointer
  else rocsparse_status.status_continue

/-- `rocsparse_coosm_analysis_checkarg`: the first validation block,
then the quickreturn call (a non-continue quickreturn status is
propagated through RETURN_IF_ROCSPARSE_ERROR followed by `return
success`), then the remaining pointer checks. -/
def rocsparse_coosm_analysis_checkarg (a : CoosmArgs) : rocsparse_status :=
  let pre := rocsparse_coosm_analysis_precheck a
  if pre ≠ rocsparse_status.status_continue then pre
  else
    let st := rocsparse_coosm_analysis_quickreturn a
    if st ≠ rocsparse_status.status_continue then
      if st ≠ rocsparse_status.success then st else rocsparse_status.success
    else
      rocsparse_coosm_analysis_postcheck a

/-- Two's-complement truncation of an `Int` to `int32_t`, as performed
by the `(int32_t)nnz` casts in `rocsparse_coosm_analysis_core`. -/
def int32cast (x : Int) : Int :=
  (x + 2147483648) % 4294967296 - 2147483648

/-- The arguments of the `rocsparse_coo2csr_template` collaborator call
made by the coosm analysis core. -/
structure Coo2csrCall where
  coo_row_ind : Option (List Int)
  nnz : Int
  m : Int
  base : rocsparse_index_base
deriving DecidableEq, Repr

/-- The arguments of the `rocsparse_csrsm_analysis_template`
collaborator call made by the coosm analysis core (memory addresses of
the scratch buffer are not part of the mathematical arguments). -/
structure CsrsmCall where
  trans_A : Option rocsparse_operation
  trans_B : Option rocsparse_operation
  m : Int
  nrhs : Int
  nnz : Int
  alpha : Option Unit
  descr : rocsparse_mat_descr
  csr_val : Option (List Int)
  csr_row_ptr : List Int
  csr_col_ind : Option (List Int)
  B : Option Unit
  ldb : Int
  info : Option Unit
  analysis : Option rocsparse_analysis_policy
  solve : Option rocsparse_solve_policy
deriving DecidableEq, Repr

/-- Oracles for the two collaborator kernels invoked by the coosm
analysis core: the coo2csr conversion (returning a status and the
computed CSR row-pointer content) and the csrsm analysis. -/
structure CoosmOracles where
  coo2csr : Coo2csrCall → rocsparse_status × List Int
  csrsm_analysis : CsrsmCall → rocsparse_status

/-- Trace of one run of the coosm analysis core: which branch ran
(`wide` = the int64_t path), the byte advance applied to the temp
buffer for the CSR row-pointer scratch region, and the collaborator
calls that were issued. -/
structure CoosmCoreTrace where
  wide : Bool
  rowptr_bytes : Int
  coo2csr_call : Option Coo2csrCall
  csrsm_call : Option CsrsmCall

/-- One arm of the `if` in `rocsparse_coosm_analysis_core`: reserve
`sizeof(idx) * (m / 256 + 1) * 256` bytes of the temp buffer for the
CSR row pointers, convert the COO row indices with coo2csr, then call
the CSR analysis; the narrow arm (`wide = false`) passes `(int32_t)nnz`. -/
def rocsparse_coosm_analysis_core_branch (or_ : CoosmOracles) (wide : Bool)
    (a : CoosmArgs) (d : rocsparse_mat_descr) : rocsparse_status × CoosmCoreTrace :=
  let nnzArg : Int := if wide then a.nnz else int32cast a.nnz
  let advance : Int := (if wide then 8 else 4) * (a.m / 256 + 1) * 256
  let ccall : Coo2csrCall :=
    { coo_row_ind := a.coo_row_ind, nnz := nnzArg, m := a.m, base := d.base }
  let conv := or_.coo2csr ccall
  if conv.fst ≠ rocsparse_status.success then
    (conv.fst,
      { wide := wide, rowptr_bytes := advance, coo2csr_call := some ccall, csrsm_call := none })
  else
    let scall : CsrsmCall :=
      { trans_A := a.trans_A, trans_B := a.trans_B, m := a.m, nrhs := a.nrhs,
        nnz := nnzArg, alpha := a.alpha, descr := d, csr_val := a.coo_val,
        csr_row_ptr := conv.snd, csr_col_ind := a.coo_col_ind, B := a.B,
        ldb := a.ldb, info := a.info, analysis := a.analysis, solve := a.solve }
    let ast := or_.csrsm_analysis scall
    if ast ≠ rocsparse_status.success then
      (ast,
        { wide := wide, rowptr_bytes := advance, coo2csr_call := some ccall,
          csrsm_call := some scall })
    else
      (rocsparse_status.success,
        { wide := wide, rowptr_bytes := advance, coo2csr_call := some ccall,
          csrsm_call := some scall })

/-- `rocsparse_coosm_analysis_core`: the int32_t path is taken when the
index type `I` is `int32_t` and `nnz < numeric_limits<int32_t>::max()`,
the int64_t path otherwise.  The core dereferences `descr->base`; a
null descriptor here is unreachable from the template (checkarg passed)
and is modelled as an internal error. -/
def rocsparse_coosm_analysis_core (or_ : CoosmOracles) (a : CoosmArgs) :
    rocsparse_status × CoosmCoreTrace :=
  match a.descr with
  | none =>
    (rocsparse_status.internal_error,
     { wide := true, rowptr_bytes := 0, coo2csr_call := none, csrsm_call := none })
  | some d =>
    if a.idx32 = true ∧ a.nnz < 2147483647 then
      rocsparse_coosm_analysis_core_branch or_ false a d
    else
      rocsparse_coosm_analysis_core_branch or_ true a d

/-- `rocsparse_coosm_analysis_template`: run checkarg; a non-continue
status is propagated (RETURN_IF_ROCSPARSE_ERROR then `return success`),
otherwise the core runs.  The boolean component records whether the
core was invoked. -/
def rocsparse_coosm_analysis_template (or_ : CoosmOracles) (a : CoosmArgs) :
    rocsparse_status × Bool :=
  let st := rocsparse_coosm_analysis_checkarg a
  if st ≠ rocsparse_status.status_continue then
    (if st ≠ rocsparse_status.success then st else rocsparse_status.success, false)
  else
    let cst := (rocsparse_coosm_analysis_core or_ a).fst
    (if cst ≠ rocsparse_status.success then cst else rocsparse_status.success, true)

/-- `rocsparse_check_matrix_gebsc_buffer_size_impl`: the checkarg /
core wrapper from the gebsc header, as a function of the statuses
returned by the two stages (the stages themselves are only declared in
the excerpt).  The second `if(status != continue)` of the source reads
the unchanged checkarg status and is kept although it can never fire. -/
def rocsparse_check_matrix_gebsc_buffer_size_impl
    (st_checkarg st_core : rocsparse_status) : rocsparse_status :=
  if st_checkarg ≠ rocsparse_status.status_continue then
    if st_checkarg ≠ rocsparse_status.success then st_checkarg else rocsparse_status.success
  else if st_core ≠ rocsparse_status.success then st_core
  else if st_checkarg ≠ rocsparse_status.status_continue then
    if st_checkarg ≠ rocsparse_status.success then st_checkarg else rocsparse_status.success
  else rocsparse_status.success

/-- `rocsparse_check_matrix_gebsc_impl`: same wrapper shape as the
buffer-size impl. -/
def rocsparse_check_matrix_gebsc_impl
    (st_checkarg st_core : rocsparse_status) : rocsparse_status :=
  if st_checkarg ≠ rocsparse_status.status_continue then
    if st_checkarg ≠ rocsparse_status.success then st_checkarg else rocsparse_status.success
  else if st_core ≠ rocsparse_status.success then st_core
  else if st_checkarg ≠ rocsparse_status.status_continue then
    if st_checkarg ≠ rocsparse_status.success then st_checkarg else rocsparse_status.success
  else rocsparse_status.success

inductive rocsparse_fill_mode where
  | lower
  | upper
deriving DecidableEq, Repr

/-- Modelled from the spec: the Level-Schedule Builder of the csrsm
analysis phase, whose kernel source is not part of the excerpt.  The
dependencies of row `i` are the columns `j` of row `i` strictly before
`i` in solve order: `j < i` for lower fill mode, `j > i` for upper. -/
def rowDeps (fill : rocsparse_fill_mode) (i : Nat) (row : List Nat) : List Nat :=
  match fill with
  | rocsparse_fill_mode.lower => row.filter (fun j => decide (j < i))
  | rocsparse_fill_mode.upper => row.filter (fun j => decide (i < j))

/-- Modelled from the spec: fuel-indexed evaluation of the level
recurrence ℓ(i) = 1 + max over dependencies j of ℓ(j) (so ℓ(i) = 1
when row i has no dependency, the max over the empty set being 0).
`rows` lists the column indices of each row. -/
def levelFuel (fill : rocsparse_fill_mode) (rows : List (List Nat)) :
    Nat → Nat → Nat
  | 0, _ => 1
  | f + 1, i =>
    1 + (rowDeps fill i (rows.getD i [])).foldr
          (fun j mx => max (levelFuel fill rows f j) mx) 0

/-- Modelled from the spec: the level assigned to row `i` by the
level-schedule builder.  `rows.length + 1` units of fuel always suffice
(dependency chains move strictly towards the first or last row). -/
def levelOf (fill : rocsparse_fill_mode) (rows : List (List Nat)) (i : Nat) : Nat :=
  levelFuel fill rows (rows.length + 1) i

/-- Fuel needed for the level recurrence to stabilise at row `i` of an
`n`-row triangular matrix. -/
def levelThreshold (fill : rocsparse_fill_mode) (n i : Nat) : Nat :=
  match fill with
  | rocsparse_fill_mode.lower => i + 1
  | rocsparse_fill_mode.upper => n + 1 - min i n

/-- A well-formed sparsity pattern: every column index lies strictly
below the row count. -/
def patternWellFormed (rows : List (List Nat)) : Prop :=
  ∀ row ∈ rows, ∀ j ∈ row, j < rows.length

instance (rows : List (List Nat)) : Decidable (patternWellFormed rows) := by
  unfold patternWellFormed; infer_instance

/-- One row of the 2D Laplacian generated by `gen_2d_laplacian` for grid
point (i, j): (column, value) pairs in the order the source pushes them
(upper neighbour, left neighbour, the diagonal with value 4, right
neighbour, lower neighbour; off-diagonal values are -1). -/
def lap_row_entries (ndim : Nat) (base : Int) (i j : Nat) : List (Int × Int) :=
  let idx : Int := (i : Int) * (ndim : Int) + (j : Int)
  (if i ≠ 0 then [(idx - (ndim : Int) + base, (-1 : Int))] else [])
    ++ ((if j ≠ 0 then [(idx - 1 + base, (-1 : Int))] else [])
    ++ ([(idx + base, (4 : Int))]
    ++ ((if j ≠ ndim - 1 then [(idx + 1 + base, (-1 : Int))] else [])
    ++ (if i ≠ ndim - 1 then [(idx + (ndim : Int) + base, (-1 : Int))] else []))))

/-- The rows of the 2D Laplacian in the order of the source's double
loop over i and j (row index idx = i * ndim + j). -/
def lap_rows (ndim : Nat) (base : Int) : List (List (Int × Int)) :=
  (List.range ndim).flatMap
    (fun i => (List.range ndim).map (fun j => lap_row_entries ndim base i j))

/-- The row-pointer array written by `gen_2d_laplacian`: entry k is the
number of entries pushed before row k plus the index base, and entry
n is the total count plus the base. -/
def lap_rowptr (ndim : Nat) (base : Int) : List Int :=
  (List.range (ndim * ndim + 1)).map
    (fun k => ((((lap_rows ndim base).take k).map List.length).sum : Int) + base)

/-- `gen_2d_laplacian`: returns n = ndim * ndim and the filled rowptr,
col and val arrays; for ndim = 0 it returns 0 leaving the caller's
arrays untouched. -/
def gen_2d_laplacian (ndim : Nat) (base : Int)
    (rowptr0 col0 val0 : List Int) : Nat × List Int × List Int × List Int :=
  if ndim = 0 then (0, rowptr0, col0, val0)
  else
    (ndim * ndim, lap_rowptr ndim base,
     ((lap_rows ndim base).flatten).map Prod.fst,
     ((lap_rows ndim base).flatten).map Prod.snd)

/-- The sampling loop of `rocsparse_init_index`: draw
`start + rand() % (end - start)` until `cnt` distinct values have been
recorded, then sort ascending.  `rng` is the stream of `rand()` values,
`pos` the stream position and `fuel` bounds the number of iterations
(`none` = the loop has not terminated within the fuel, or the source
would divide by a non-positive `end - start`). -/
def rocsparse_init_index_loop (rng : Nat → Nat) (start endv : Int) (cnt : Nat) :
    Nat → Nat → List Int → Option (List Int × Nat)
  | 0, _, _ => none
  | f + 1, pos, acc =>
    if acc.length = cnt then some (acc.insertionSort (· ≤ ·), pos)
    else if endv - start ≤ 0 then none
    else
      let v : Int := start + (rng pos : Int) % (endv - start)
      if v ∈ acc then rocsparse_init_index_loop rng start endv cnt f (pos + 1) acc
      else rocsparse_init_index_loop rng start endv cnt f (pos + 1) (acc ++ [v])

/-- `rocsparse_init_index`: initialize a sparse index vector with `cnt`
distinct entries ranging from `start` (inclusive) to `endv`
(exclusive), sorted ascending. -/
def rocsparse_init_index (rng : Nat → Nat) (start endv : Int) (cnt fuel pos : Nat) :
    Option (List Int × Nat) :=
  rocsparse_init_index_loop rng start endv cnt fuel pos []

/-- The row-offset construction of `rocsparse_init_csr`: ptr[0] = 0 and
ptr[nrow] = nnz, the interior entries drawn as `rand() % (nnz - 1) + 1`,
then the whole vector sorted.  `none` models the division by zero the
source would perform when an interior entry is drawn with nnz < 2. -/
def rocsparse_init_csr_ptr (rng : Nat → Nat) (nrow nnz pos : Nat) :
    Option (List Nat × Nat) :=
  if nrow = 0 then some ([nnz], pos)
  else if 1 < nrow ∧ nnz < 2 then none
  else
    let interior := (List.range (nrow - 1)).map (fun k => rng (pos + k) % (nnz - 1) + 1)
    some ((0 :: (interior ++ [nnz])).insertionSort (· ≤ ·), pos + (nrow - 1))

/-- The per-row column sampling of `rocsparse_init_csr`: for each row
count in `cnts`, call `rocsparse_init_index` with the range
[0, ncol - 1), threading the rand() stream position. -/
def rocsparse_init_csr_cols (rng : Nat → Nat) (ncol : Int) (fuel : Nat) :
    List Nat → Nat → Option (List (List Int) × Nat)
  | [], pos => some ([], pos)
  | c :: cs, pos =>
    match rocsparse_init_index rng 0 (ncol - 1) c fuel pos with
    | none => none
    | some (xs, pos1) =>
      match rocsparse_init_csr_cols rng ncol fuel cs pos1 with
      | none => none
      | some (rest, pos2) => some (xs :: rest, pos2)

/-- `rocsparse_init_csr`: build the row offsets, then sample each row's
column indices from [0, ncol - 1).  The random values written to `val`
carry no structure the claims speak about and are omitted.  Returns the
row-pointer array and the per-row column index segments. -/
def rocsparse_init_csr (rng : Nat → Nat) (nrow ncol nnz fuel : Nat) :
    Option (List Nat × List (List Int)) :=
  match rocsparse_init_csr_ptr rng nrow nnz 0 with
  | none => none
  | some (ptr, pos) =>
    let cnts := (List.range nrow).map (fun i => ptr.getD (i + 1) 0 - ptr.getD i 0)
    match rocsparse_init_csr_cols rng (ncol : Int) fuel cnts pos with
    | none => none
    | some (rows, _) => some (ptr, rows)

/-- A trivial pair of collaborator oracles (both kernels succeed),
used to instantiate the coosm theorems at concrete inputs. -/
def trivialOracles : CoosmOracles :=
  { coo2csr := fun _ => (rocsparse_status.success, []),
    csrsm_analysis := fun _ => rocsparse_status.success }

/-- A general, sorted-storage, zero-based matrix descriptor. -/
def generalDescr : rocsparse_mat_descr :=
  { type := rocsparse_matrix_type.general,
    storage_mode := rocsparse_storage_mode.sorted,
    base := rocsparse_index_base.base_zero }

/-- A fully valid coosm analysis argument tuple for a small problem. -/
def validArgs : CoosmArgs :=
  { handle := some (), trans_A := some rocsparse_operation.op_none,
    trans_B := some rocsparse_operation.op_none, m := 2, nrhs := 1, nnz := 2,
    alpha := some (), descr := some generalDescr, coo_val := some [1, 1],
    coo_row_ind := some [0, 1], coo_col_ind := some [0, 1], B := some (),
    ldb := 2, info := some (), analysis := some rocsparse_analysis_policy.reuse,
    solve := some rocsparse_solve_policy.auto, temp_buffer := some (),
    idx32 := true }

/-- Zero-dimension input (m = 0) whose handle and every later pointer is
null and whose sizes are otherwise valid except the handle. -/
def zeroDimNullHandleArgs : CoosmArgs :=
  { validArgs with
    m := 0
    handle := none
    alpha := none
    coo_val := none
    coo_row_ind := none
    coo_col_ind := none
    B := none
    temp_buffer := none }

/-- Zero-dimension input with valid handle, enums, sizes and non-null
descriptor and info, but a symmetric (non-general) matrix type. -/
def zeroDimSymmetricArgs : CoosmArgs :=
  { validArgs with
    m := 0
    descr := some { generalDescr with type := rocsparse_matrix_type.symmetric }
    alpha := none
    coo_val := none
    coo_row_ind := none
    coo_col_ind := none
    B := none
    temp_buffer := none }

/-- Zero-dimension input passing the whole first validation block, with
every pointer checked after the quickreturn left null. -/
def zeroDimValidArgs : CoosmArgs :=
  { validArgs with
    m := 0
    alpha := none
    coo_val := none
    coo_row_ind := none
    coo_col_ind := none
    B := none
    temp_buffer := none }

/-- The 3-row lower-triangular pattern of the spec's Scenario 1:
row_ptr = [0,1,3,5], col_ind = [0,0,1,1,2]. -/
def scenarioRows : List (List Nat) := [[0], [0, 1], [1, 2]]

/-- A non-zero-sized, otherwise valid input whose alpha pointer is null. -/
def nullAlphaArgs : CoosmArgs := { validArgs with alpha := none }

theorem status_mem_public_iff (s : rocsparse_status) :
    s ∈ rocsparse_public_statuses ↔ s ≠ rocsparse_status.status_continue := by
  cases s <;> simp [rocsparse_public_statuses]

theorem precheck_continue_of (a : CoosmArgs)
    (hh : a.handle ≠ none) (hta : a.trans_A ≠ none) (htb : a.trans_B ≠ none)
    (hm : 0 ≤ a.m) (hr : 0 ≤ a.nrhs) (hn : 0 ≤ a.nnz)
    (d : rocsparse_mat_descr) (hd : a.descr = some d)
    (hdt : d.type = rocsparse_matrix_type.general)
    (hds : d.storage_mode = rocsparse_storage_mode.sorted)
    (hi : a.info ≠ none) (han : a.analysis ≠ none) (hs : a.solve ≠ none) :
    rocsparse_coosm_analysis_precheck a = rocsparse_status.status_continue := by
  unfold rocsparse_coosm_analysis_precheck
  rw [hd]
  simp [hh, hta, htb, hi, han, hs, hdt, hds, not_lt.mpr hm, not_lt.mpr hr, not_lt.mpr hn]

theorem coosm_template_of_checkarg_ne (or_ : CoosmOracles) (a : CoosmArgs)
    (s : rocsparse_status) (hs : rocsparse_coosm_analysis_checkarg a = s)
    (h1 : s ≠ rocsparse_status.status_continue) :
    rocsparse_coosm_analysis_template or_ a =
      (if s ≠ rocsparse_status.success then s else rocsparse_status.success, false) := by
  unfold rocsparse_coosm_analysis_template
  simp [hs, h1]

theorem coosm_checkarg_of_precheck_ne (a : CoosmArgs)
    (h : rocsparse_coosm_analysis_precheck a ≠ rocsparse_status.status_continue) :
    rocsparse_coosm_analysis_checkarg a = rocsparse_coosm_analysis_precheck a := by
  unfold rocsparse_coosm_analysis_checkarg
  simp [h]

theorem coosm_checkarg_of_precheck_quick (a : CoosmArgs)
    (h : rocsparse_coosm_analysis_precheck a = rocsparse_status.status_continue)
    (hm : ¬(a.m = 0 ∨ a.nrhs = 0)) :
    rocsparse_coosm_analysis_checkarg a = rocsparse_coosm_analysis_postcheck a := by
  unfold rocsparse_coosm_analysis_checkarg rocsparse_coosm_analysis_quickreturn
  simp [h, hm]

/-- Claim C1, counterexample: with a zero dimension (m = 0) but a null
handle, the coosm analysis routine does not succeed trivially — the
handle (and enum/size/descriptor/info) validation runs before the
quick-return check and reports invalid-handle. -/
theorem coosm_quickreturn_not_first_counterexample :
    zeroDimNullHandleArgs.m = 0 ∧ zeroDimNullHandleArgs.handle = none ∧
      rocsparse_coosm_analysis_template trivialOracles zeroDimNullHandleArgs =
        (rocsparse_status.invalid_handle, false) ∧
      rocsparse_status.invalid_handle ≠ rocsparse_status.success := by
  refine ⟨rfl, rfl, ?_, by decide⟩
  decide

/-- Claim C1 (amended): the quick-return check of the coosm analysis
routine runs inside argument validation, after the handle / enum /
size / descriptor / info checks and before the remaining pointer
checks: on any invocation with a zero dimension (m = 0 or nrhs = 0)
the routine returns exactly the outcome of that first validation block
(success when it passes, its error otherwise), the core is never
invoked, and the alpha / coo array / B / temp buffer arguments are
never examined. -/
theorem coosm_zero_dim_precheck_decides (or_ : CoosmOracles) (a : CoosmArgs)
    (h : a.m = 0 ∨ a.nrhs = 0) :
    rocsparse_coosm_analysis_template or_ a =
      (if rocsparse_coosm_analysis_precheck a = rocsparse_status.status_continue
        then rocsparse_status.success else rocsparse_coosm_analysis_precheck a,
       false) := by
  by_cases hp : rocsparse_coosm_analysis_precheck a = rocsparse_status.status_continue
  · have hc : rocsparse_coosm_analysis_checkarg a = rocsparse_status.success := by
      unfold rocsparse_coosm_analysis_checkarg rocsparse_coosm_analysis_quickreturn
      simp [hp, h]
    unfold rocsparse_coosm_analysis_template
    simp [hc, hp]
  · have hc := coosm_checkarg_of_precheck_ne a hp
    unfold rocsparse_coosm_analysis_template
    rw [hc]
    simp only [if_neg (not_not.mpr hp), if_pos hp]
    split_ifs with h1 <;> simp_all

/-- Witness for C1 (amended) at a concrete zero-dimension input whose
handle is null: the first validation block decides the outcome. -/
theorem coosm_zero_dim_precheck_decides_witness :
    rocsparse_coosm_analysis_template trivialOracles zeroDimNullHandleArgs =
      (if rocsparse_coosm_analysis_precheck zeroDimNullHandleArgs =
            rocsparse_status.status_continue
        then rocsparse_status.success
        else rocsparse_coosm_analysis_precheck zeroDimNullHandleArgs,
       false) :=
  coosm_zero_dim_precheck_decides trivialOracles zeroDimNullHandleArgs (Or.inl (by decide))

/-- Claim C2, counterexample: a zero-sized problem (m = 0) with valid
handle, valid enums, non-negative sizes and non-null descriptor and
info does not always return success — a non-null descriptor whose
matrix type is symmetric makes the routine return not-implemented
before the quick-return check is reached. -/
theorem coosm_zero_dim_nonnull_descr_counterexample :
    zeroDimSymmetricArgs.m = 0 ∧ zeroDimSymmetricArgs.handle ≠ none ∧
      zeroDimSymmetricArgs.trans_A ≠ none ∧ zeroDimSymmetricArgs.trans_B ≠ none ∧
      0 ≤ zeroDimSymmetricArgs.m ∧ 0 ≤ zeroDimSymmetricArgs.nrhs ∧
      0 ≤ zeroDimSymmetricArgs.nnz ∧ zeroDimSymmetricArgs.descr ≠ none ∧
      zeroDimSymmetricArgs.info ≠ none ∧
      zeroDimSymmetricArgs.analysis ≠ none ∧ zeroDimSymmetricArgs.solve ≠ none ∧
      rocsparse_coosm_analysis_template trivialOracles zeroDimSymmetricArgs =
        (rocsparse_status.not_implemented, false) ∧
      rocsparse_status.not_implemented ≠ rocsparse_status.success := by
  decide

/-- Claim C2 (amended): on a zero-sized problem (m = 0 or nrhs = 0)
with a valid handle, valid enums, non-negative sizes and a non-null
descriptor of general matrix type and sorted storage mode together
with a non-null info, the coosm analysis returns success immediately:
the core is never invoked and the temp buffer, alpha, the coo arrays
and B are never dereferenced (they are arbitrary here and may all be
null). -/
theorem coosm_zero_dim_valid_quick_success (or_ : CoosmOracles) (a : CoosmArgs)
    (hh : a.handle ≠ none) (hta : a.trans_A ≠ none) (htb : a.trans_B ≠ none)
    (hm : 0 ≤ a.m) (hr : 0 ≤ a.nrhs) (hn : 0 ≤ a.nnz)
    (d : rocsparse_mat_descr) (hd : a.descr = some d)
    (hdt : d.type = rocsparse_matrix_type.general)
    (hds : d.storage_mode = rocsparse_storage_mode.sorted)
    (hi : a.info ≠ none) (han : a.analysis ≠ none) (hs : a.solve ≠ none)
    (hz : a.m = 0 ∨ a.nrhs = 0) :
    rocsparse_coosm_analysis_template or_ a = (rocsparse_status.success, false) := by
  have hp := precheck_continue_of a hh hta htb hm hr hn d hd hdt hds hi han hs
  have hc : rocsparse_coosm_analysis_checkarg a = rocsparse_status.success := by
    unfold rocsparse_coosm_analysis_checkarg rocsparse_coosm_analysis_quickreturn
    simp [hp, hz]
  unfold rocsparse_coosm_analysis_template
  simp [hc]

/-- Witness for C2 (amended): the concrete zero-dimension input with
all post-quick-return pointers null returns success without running
the core. -/
theorem coosm_zero_dim_valid_quick_success_witness :
    rocsparse_coosm_analysis_template trivialOracles zeroDimValidArgs =
      (rocsparse_status.success, false) :=
  coosm_zero_dim_valid_quick_success trivialOracles zeroDimValidArgs
    (by decide) (by decide) (by decide) (by decide) (by decide) (by decide)
    generalDescr (by decide) (by decide) (by decide)
    (by decide) (by decide) (by decide) (Or.inl (by decide))

/-- Claim C3: whenever argument validation of the coosm analysis
routine fails (returns a status that is neither the continue sentinel
nor success), the template returns that error status, the core — the
only stage issuing the coo2csr / csrsm calls that write the temp
buffer and the info artifact — is never invoked, and no partial work
is performed. -/
theorem coosm_checkarg_failure_stops_template (or_ : CoosmOracles) (a : CoosmArgs)
    (s : rocsparse_status) (hs : rocsparse_coosm_analysis_checkarg a = s)
    (h1 : s ≠ rocsparse_status.status_continue) (h2 : s ≠ rocsparse_status.success) :
    rocsparse_coosm_analysis_template or_ a = (s, false) := by
  unfold rocsparse_coosm_analysis_template
  simp [hs, h1, h2]

/-- Witness for C3 at a concrete input rejected with invalid-handle. -/
theorem coosm_checkarg_failure_stops_template_witness :
    rocsparse_coosm_analysis_template trivialOracles zeroDimNullHandleArgs =
      (rocsparse_status.invalid_handle, false) :=
  coosm_checkarg_failure_stops_template trivialOracles zeroDimNullHandleArgs
    rocsparse_status.invalid_handle (by decide) (by decide) (by decide)

theorem coosm_core_branch_ne_continue (or_ : CoosmOracles) (wide : Bool)
    (a : CoosmArgs) (d : rocsparse_mat_descr)
    (h1 : ∀ c, (or_.coo2csr c).fst ≠ rocsparse_status.status_continue)
    (h2 : ∀ c, or_.csrsm_analysis c ≠ rocsparse_status.status_continue) :
    (rocsparse_coosm_analysis_core_branch or_ wide a d).fst ≠
      rocsparse_status.status_continue := by
  unfold rocsparse_coosm_analysis_core_branch
  dsimp only
  split_ifs <;> first | exact h1 _ | exact h2 _ | simp

/-- Claim C4: the coosm analysis template and the check_matrix_gebsc
impl wrappers only ever return a status from the closed public set
(success, invalid-handle, invalid-value, invalid-pointer, invalid-size,
memory-error, not-implemented, internal-error): the internal
rocsparse_status_continue sentinel of the checkarg/quickreturn pipeline
never escapes to the caller, provided the collaborator kernels and the
gebsc core stages honour their contract of never returning the
sentinel themselves. -/
theorem coosm_status_closed_set (or_ : CoosmOracles) (a : CoosmArgs)
    (st_checkarg st_core1 st_core2 : rocsparse_status)
    (h1 : ∀ c, (or_.coo2csr c).fst ≠ rocsparse_status.status_continue)
    (h2 : ∀ c, or_.csrsm_analysis c ≠ rocsparse_status.status_continue)
    (h3 : st_core1 ≠ rocsparse_status.status_continue)
    (h4 : st_core2 ≠ rocsparse_status.status_continue) :
    (rocsparse_coosm_analysis_template or_ a).fst ∈ rocsparse_public_statuses ∧
      rocsparse_check_matrix_gebsc_buffer_size_impl st_checkarg st_core1 ∈
        rocsparse_public_statuses ∧
      rocsparse_check_matrix_gebsc_impl st_checkarg st_core2 ∈
        rocsparse_public_statuses := by
  refine ⟨?_, ?_, ?_⟩
  · rw [status_mem_public_iff]
    unfold rocsparse_coosm_analysis_template
    by_cases hc : rocsparse_coosm_analysis_checkarg a = rocsparse_status.status_continue
    · have hcore : (rocsparse_coosm_analysis_core or_ a).fst ≠
          rocsparse_status.status_continue := by
        unfold rocsparse_coosm_analysis_core
        rcases a.descr with _ | d
        · simp
        · split_ifs <;> exact coosm_core_branch_ne_continue or_ _ a d h1 h2
      simp only [hc]
      split_ifs <;> simp_all
    · simp only [hc]
      split_ifs <;> simp_all
  · rw [status_mem_public_iff]
    unfold rocsparse_check_matrix_gebsc_buffer_size_impl
    split_ifs <;> simp_all
  · rw [status_mem_public_iff]
    unfold rocsparse_check_matrix_gebsc_impl
    split_ifs <;> simp_all

/-- Witness for C4 with the trivial oracles, a fully valid argument
tuple and success statuses for the gebsc stages. -/
theorem coosm_status_closed_set_witness :
    (rocsparse_coosm_analysis_template trivialOracles validArgs).fst ∈
        rocsparse_public_statuses ∧
      rocsparse_check_matrix_gebsc_buffer_size_impl
          rocsparse_status.status_continue rocsparse_status.success ∈
        rocsparse_public_statuses ∧
      rocsparse_check_matrix_gebsc_impl
          rocsparse_status.status_continue rocsparse_status.success ∈
        rocsparse_public_statuses :=
  coosm_status_closed_set trivialOracles validArgs
    rocsparse_status.status_continue rocsparse_status.success rocsparse_status.success
    (fun _ => by simp [trivialOracles]) (fun _ => by simp [trivialOracles])
    (by decide) (by decide)

theorem coosm_template_err_of_precheck (or_ : CoosmOracles) (a : CoosmArgs)
    (s : rocsparse_status) (hp : rocsparse_coosm_analysis_precheck a = s)
    (h1 : s ≠ rocsparse_status.status_continue) (h2 : s ≠ rocsparse_status.success) :
    rocsparse_coosm_analysis_template or_ a = (s, false) := by
  have hc : rocsparse_coosm_analysis_checkarg a = s := by
    rw [coosm_checkarg_of_precheck_ne a (by rw [hp]; exact h1)]
    exact hp
  rw [coosm_template_of_checkarg_ne or_ a s hc h1]
  simp [h2]

theorem coosm_template_err_of_postcheck (or_ : CoosmOracles) (a : CoosmArgs)
    (s : rocsparse_status)
    (hpre : rocsparse_coosm_analysis_precheck a = rocsparse_status.status_continue)
    (hm : ¬(a.m = 0 ∨ a.nrhs = 0))
    (hp : rocsparse_coosm_analysis_postcheck a = s)
    (h1 : s ≠ rocsparse_status.status_continue) (h2 : s ≠ rocsparse_status.success) :
    rocsparse_coosm_analysis_template or_ a = (s, false) := by
  have hc : rocsparse_coosm_analysis_checkarg a = s := by
    rw [coosm_checkarg_of_precheck_quick a hpre hm]
    exact hp
  rw [coosm_template_of_checkarg_ne or_ a s hc h1]
  simp [h2]

/-- Claim C6: each validation failure of the coosm analysis routine
reports a distinct, deterministic error kind and returns immediately
(core never invoked), the checks running in source order: a null
handle yields invalid-handle; an out-of-range operation or policy enum
yields invalid-value; a negative m, nrhs or nnz yields invalid-size; a
null descriptor or info — or, past the quick-return, a null alpha, coo
array (when nnz is nonzero), B or temp buffer — yields
invalid-pointer; a non-general matrix type or non-sorted storage mode
yields not-implemented. -/
theorem coosm_checkarg_error_kinds (or_ : CoosmOracles) (a : CoosmArgs) :
    (a.handle = none →
      rocsparse_coosm_analysis_template or_ a = (rocsparse_status.invalid_handle, false)) ∧
    (a.handle ≠ none → a.trans_A = none →
      rocsparse_coosm_analysis_template or_ a = (rocsparse_status.invalid_value, false)) ∧
    (a.handle ≠ none → a.trans_A ≠ none → a.trans_B = none →
      rocsparse_coosm_analysis_template or_ a = (rocsparse_status.invalid_value, false)) ∧
    (a.handle ≠ none → a.trans_A ≠ none → a.trans_B ≠ none → a.m < 0 →
      rocsparse_coosm_analysis_template or_ a = (rocsparse_status.invalid_size, false)) ∧
    (a.handle ≠ none → a.trans_A ≠ none → a.trans_B ≠ none → 0 ≤ a.m → a.nrhs < 0 →
      rocsparse_coosm_analysis_template or_ a = (rocsparse_status.invalid_size, false)) ∧
    (a.handle ≠ none → a.trans_A ≠ none → a.trans_B ≠ none → 0 ≤ a.m → 0 ≤ a.nrhs →
      a.nnz < 0 →
      rocsparse_coosm_analysis_template or_ a = (rocsparse_status.invalid_size, false)) ∧
    (a.handle ≠ none → a.trans_A ≠ none → a.trans_B ≠ none → 0 ≤ a.m → 0 ≤ a.nrhs →
      0 ≤ a.nnz → a.descr = none →
      rocsparse_coosm_analysis_template or_ a = (rocsparse_status.invalid_pointer, false)) ∧
    (∀ d, a.handle ≠ none → a.trans_A ≠ none → a.trans_B ≠ none → 0 ≤ a.m → 0 ≤ a.nrhs →
      0 ≤ a.nnz → a.descr = some d → d.type ≠ rocsparse_matrix_type.general →
      rocsparse_coosm_analysis_template or_ a = (rocsparse_status.not_implemented, false)) ∧
    (∀ d, a.handle ≠ none → a.trans_A ≠ none → a.trans_B ≠ none → 0 ≤ a.m → 0 ≤ a.nrhs →
      0 ≤ a.nnz → a.descr = some d → d.type = rocsparse_matrix_type.general →
      d.storage_mode ≠ rocsparse_storage_mode.sorted →
      rocsparse_coosm_analysis_template or_ a = (rocsparse_status.not_implemented, false)) ∧
    (∀ d, a.handle ≠ none → a.trans_A ≠ none → a.trans_B ≠ none → 0 ≤ a.m → 0 ≤ a.nrhs →
      0 ≤ a.nnz → a.descr = some d → d.type = rocsparse_matrix_type.general →
      d.storage_mode = rocsparse_storage_mode.sorted → a.info = none →
      rocsparse_coosm_analysis_template or_ a = (rocsparse_status.invalid_pointer, false)) ∧
    (∀ d, a.handle ≠ none → a.trans_A ≠ none → a.trans_B ≠ none → 0 ≤ a.m → 0 ≤ a.nrhs →
      0 ≤ a.nnz → a.descr = some d → d.type = rocsparse_matrix_type.general →
      d.storage_mode = rocsparse_storage_mode.sorted → a.info ≠ none → a.analysis = none →
      rocsparse_coosm_analysis_template or_ a = (rocsparse_status.invalid_value, false)) ∧
    (∀ d, a.handle ≠ none → a.trans_A ≠ none → a.trans_B ≠ none → 0 ≤ a.m → 0 ≤ a.nrhs →
      0 ≤ a.nnz → a.descr = some d → d.type = rocsparse_matrix_type.general →
      d.storage_mode = rocsparse_storage_mode.sorted → a.info ≠ none → a.analysis ≠ none →
      a.solve = none →
      rocsparse_coosm_analysis_template or_ a = (rocsparse_status.invalid_value, false)) ∧
    (rocsparse_coosm_analysis_precheck a = rocsparse_status.status_continue → a.m ≠ 0 →
      a.nrhs ≠ 0 → a.alpha = none →
      rocsparse_coosm_analysis_template or_ a = (rocsparse_status.invalid_pointer, false)) ∧
    (rocsparse_coosm_analysis_precheck a = rocsparse_status.status_continue → a.m ≠ 0 →
      a.nrhs ≠ 0 → a.alpha ≠ none → a.nnz ≠ 0 → a.coo_val = none →
      rocsparse_coosm_analysis_template or_ a = (rocsparse_status.invalid_pointer, false)) ∧
    (rocsparse_coosm_analysis_precheck a = rocsparse_status.status_continue → a.m ≠ 0 →
      a.nrhs ≠ 0 → a.alpha ≠ none → a.coo_val ≠ none → a.nnz ≠ 0 → a.coo_row_ind = none →
      rocsparse_coosm_analysis_template or_ a = (rocsparse_status.invalid_pointer, false)) ∧
    (rocsparse_coosm_analysis_precheck a = rocsparse_status.status_continue → a.m ≠ 0 →
      a.nrhs ≠ 0 → a.alpha ≠ none → a.coo_val ≠ none → a.coo_row_ind ≠ none → a.nnz ≠ 0 →
      a.coo_col_ind = none →
      rocsparse_coosm_analysis_template or_ a = (rocsparse_status.invalid_pointer, false)) ∧
    (rocsparse_coosm_analysis_precheck a = rocsparse_status.status_continue → a.m ≠ 0 →
      a.nrhs ≠ 0 → a.alpha ≠ none → a.coo_val ≠ none → a.coo_row_ind ≠ none →
      a.coo_col_ind ≠ none → a.B = none →
      rocsparse_coosm_analysis_template or_ a = (rocsparse_status.invalid_pointer, false)) ∧
    (rocsparse_coosm_analysis_precheck a = rocsparse_status.status_continue → a.m ≠ 0 →
      a.nrhs ≠ 0 → a.alpha ≠ none → a.coo_val ≠ none → a.coo_row_ind ≠ none →
      a.coo_col_ind ≠ none → a.B ≠ none → a.temp_buffer = none →
      rocsparse_coosm_analysis_template or_ a = (rocsparse_status.invalid_pointer, false)) := by
  refine ⟨?_, ?_, ?_, ?_, ?_, ?_, ?_, ?_, ?_, ?_, ?_, ?_, ?_, ?_, ?_, ?_, ?_, ?_⟩
  · intro h1
    exact coosm_template_err_of_precheck or_ a rocsparse_status.invalid_handle
      (by unfold rocsparse_coosm_analysis_precheck; simp [h1]) (by decide) (by decide)
  · intro h1 h2
    exact coosm_template_err_of_precheck or_ a rocsparse_status.invalid_value
      (by unfold rocsparse_coosm_analysis_precheck; simp [h1, h2]) (by decide) (by decide)
  · intro h1 h2 h3
    exact coosm_template_err_of_precheck or_ a rocsparse_status.invalid_value
      (by unfold rocsparse_coosm_analysis_precheck; simp [h1, h2, h3]) (by decide) (by decide)
  · intro h1 h2 h3 h4
    exact coosm_template_err_of_precheck or_ a rocsparse_status.invalid_size
      (by unfold rocsparse_coosm_analysis_precheck; simp [h1, h2, h3, h4])
      (by decide) (by decide)
  · intro h1 h2 h3 h4 h5
    exact coosm_template_err_of_precheck or_ a rocsparse_status.invalid_size
      (by unfold rocsparse_coosm_analysis_precheck; simp [h1, h2, h3, not_lt.mpr h4, h5])
      (by decide) (by decide)
  · intro h1 h2 h3 h4 h5 h6
    exact coosm_template_err_of_precheck or_ a rocsparse_status.invalid_size
      (by unfold rocsparse_coosm_analysis_precheck
          simp [h1, h2, h3, not_lt.mpr h4, not_lt.mpr h5, h6])
      (by decide) (by decide)
  · intro h1 h2 h3 h4 h5 h6 h7
    exact coosm_template_err_of_precheck or_ a rocsparse_status.invalid_pointer
      (by unfold rocsparse_coosm_analysis_precheck
          simp [h1, h2, h3, not_lt.mpr h4, not_lt.mpr h5, not_lt.mpr h6, h7])
      (by decide) (by decide)
  · intro d h1 h2 h3 h4 h5 h6 h7 h8
    exact coosm_template_err_of_precheck or_ a rocsparse_status.not_implemented
      (by unfold rocsparse_coosm_analysis_precheck
          simp [h1, h2, h3, not_lt.mpr h4, not_lt.mpr h5, not_lt.mpr h6, h7, h8])
      (by decide) (by decide)
  · intro d h1 h2 h3 h4 h5 h6 h7 h8 h9
    exact coosm_template_err_of_precheck or_ a rocsparse_status.not_implemented
      (by unfold rocsparse_coosm_analysis_precheck
          simp [h1, h2, h3, not_lt.mpr h4, not_lt.mpr h5, not_lt.mpr h6, h7, h8, h9])
      (by decide) (by decide)
  · intro d h1 h2 h3 h4 h5 h6 h7 h8 h9 h10
    exact coosm_template_err_of_precheck or_ a rocsparse_status.invalid_pointer
      (by unfold rocsparse_coosm_analysis_precheck
          simp [h1, h2, h3, not_lt.mpr h4, not_lt.mpr h5, not_lt.mpr h6, h7, h8, h9, h10])
      (by decide) (by decide)
  · intro d h1 h2 h3 h4 h5 h6 h7 h8 h9 h10 h11
    exact coosm_template_err_of_precheck or_ a rocsparse_status.invalid_value
      (by unfold rocsparse_coosm_analysis_precheck
          simp [h1, h2, h3, not_lt.mpr h4, not_lt.mpr h5, not_lt.mpr h6, h7, h8, h9, h10, h11])
      (by decide) (by decide)
  · intro d h1 h2 h3 h4 h5 h6 h7 h8 h9 h10 h11 h12
    exact coosm_template_err_of_precheck or_ a rocsparse_status.invalid_value
      (by unfold rocsparse_coosm_analysis_precheck
          simp [h1, h2, h3, not_lt.mpr h4, not_lt.mpr h5, not_lt.mpr h6, h7, h8, h9, h10,
                h11, h12])
      (by decide) (by decide)
  · intro hpre hm hr h1
    exact coosm_template_err_of_postcheck or_ a rocsparse_status.invalid_pointer hpre
      (by simp [hm, hr])
      (by unfold rocsparse_coosm_analysis_postcheck; simp [h1]) (by decide) (by decide)
  · intro hpre hm hr h1 h2 h3
    exact coosm_template_err_of_postcheck or_ a rocsparse_status.invalid_pointer hpre
      (by simp [hm, hr])
      (by unfold rocsparse_coosm_analysis_postcheck; simp [h1, h2, h3]) (by decide) (by decide)
  · intro hpre hm hr h1 h2 h3 h4
    exact coosm_template_err_of_postcheck or_ a rocsparse_status.invalid_pointer hpre
      (by simp [hm, hr])
      (by unfold rocsparse_coosm_analysis_postcheck; simp [h1, h2, h3, h4])
      (by decide) (by decide)
  · intro hpre hm hr h1 h2 h3 h4 h5
    exact coosm_template_err_of_postcheck or_ a rocsparse_status.invalid_pointer hpre
      (by simp [hm, hr])
      (by unfold rocsparse_coosm_analysis_postcheck; simp [h1, h2, h3, h4, h5])
      (by decide) (by decide)
  · intro hpre hm hr h1 h2 h3 h4 h5
    exact coosm_template_err_of_postcheck or_ a rocsparse_status.invalid_pointer hpre
      (by simp [hm, hr])
      (by unfold rocsparse_coosm_analysis_postcheck; simp [h1, h2, h3, h4, h5])
      (by decide) (by decide)
  · intro hpre hm hr h1 h2 h3 h4 h5 h6
    exact coosm_template_err_of_postcheck or_ a rocsparse_status.invalid_pointer hpre
      (by simp [hm, hr])
      (by unfold rocsparse_coosm_analysis_postcheck; simp [h1, h2, h3, h4, h5, h6])
      (by decide) (by decide)

/-- Witness for C6: a concrete valid-sized input with a null alpha is
rejected with invalid-pointer without invoking the core. -/
theorem coosm_checkarg_error_kinds_witness :
    rocsparse_coosm_analysis_template trivialOracles nullAlphaArgs =
      (rocsparse_status.invalid_pointer, false) :=
  (coosm_checkarg_error_kinds trivialOracles nullAlphaArgs).2.2.2.2.2.2.2.2.2.2.2.2.1
    (by decide) (by decide) (by decide) (by decide)

theorem int32cast_eq_self (x : Int) (h0 : 0 ≤ x) (h1 : x < 2147483647) :
    int32cast x = x := by
  unfold int32cast
  rw [Int.emod_eq_of_lt (by omega) (by omega)]
  omega

/-- Claim C5: the two branches of the coosm analysis core compute
equivalent results on the same (int32-representable) input — they
return the same status and issue the same coo2csr conversion and the
same csrsm analysis call on the same rows, columns and values, the
only difference being the index width used for the scratch row-pointer
region. -/
theorem coosm_core_branches_equivalent (or_ : CoosmOracles) (a : CoosmArgs)
    (d : rocsparse_mat_descr) (h0 : 0 ≤ a.nnz) (h1 : a.nnz < 2147483647) :
    (rocsparse_coosm_analysis_core_branch or_ false a d).fst =
        (rocsparse_coosm_analysis_core_branch or_ true a d).fst ∧
      (rocsparse_coosm_analysis_core_branch or_ false a d).snd.coo2csr_call =
        (rocsparse_coosm_analysis_core_branch or_ true a d).snd.coo2csr_call ∧
      (rocsparse_coosm_analysis_core_branch or_ false a d).snd.csrsm_call =
        (rocsparse_coosm_analysis_core_branch or_ true a d).snd.csrsm_call := by
  have hcast : int32cast a.nnz = a.nnz := int32cast_eq_self a.nnz h0 h1
  unfold rocsparse_coosm_analysis_core_branch
  dsimp only
  rw [hcast]
  split_ifs <;> simp_all

/-- Witness for C5 at a concrete small input. -/
theorem coosm_core_branches_equivalent_witness :
    (rocsparse_coosm_analysis_core_branch trivialOracles false validArgs generalDescr).fst =
        (rocsparse_coosm_analysis_core_branch trivialOracles true validArgs generalDescr).fst ∧
      (rocsparse_coosm_analysis_core_branch trivialOracles false validArgs
            generalDescr).snd.coo2csr_call =
        (rocsparse_coosm_analysis_core_branch trivialOracles true validArgs
            generalDescr).snd.coo2csr_call ∧
      (rocsparse_coosm_analysis_core_branch trivialOracles false validArgs
            generalDescr).snd.csrsm_call =
        (rocsparse_coosm_analysis_core_branch trivialOracles true validArgs
            generalDescr).snd.csrsm_call :=
  coosm_core_branches_equivalent trivialOracles validArgs generalDescr (by decide) (by decide)

theorem coosm_core_branch_trace (or_ : CoosmOracles) (wide : Bool) (a : CoosmArgs)
    (d : rocsparse_mat_descr) :
    (rocsparse_coosm_analysis_core_branch or_ wide a d).snd.wide = wide ∧
      (rocsparse_coosm_analysis_core_branch or_ wide a d).snd.rowptr_bytes =
        (if wide then 8 else 4) * (a.m / 256 + 1) * 256 ∧
      (rocsparse_coosm_analysis_core_branch or_ wide a d).snd.coo2csr_call =
        some { coo_row_ind := a.coo_row_ind,
               nnz := if wide then a.nnz else int32cast a.nnz, m := a.m, base := d.base } := by
  unfold rocsparse_coosm_analysis_core_branch
  dsimp only
  split_ifs <;> simp

/-- Claim C8: the coosm analysis core takes the narrow (int32_t) path
exactly when the index type is int32_t and nnz < 2^31 - 1 — so the
`(int32_t)nnz` narrowing cast, performed only there, never overflows
(the recorded coo2csr call still carries the exact nnz) and larger nnz
values or a 64-bit index type always take the int64_t path; in both
branches the CSR row-pointer scratch region is padded to
(m / 256 + 1) * 256 index elements, a multiple of 256 that covers the
m + 1 row pointers. -/
theorem coosm_core_narrow_guard_and_padding (or_ : CoosmOracles) (a : CoosmArgs)
    (d : rocsparse_mat_descr) (hd : a.descr = some d) (h0 : 0 ≤ a.nnz) (_hm : 0 ≤ a.m) :
    ((rocsparse_coosm_analysis_core or_ a).snd.wide = false ↔
        (a.idx32 = true ∧ a.nnz < 2147483647)) ∧
      ((rocsparse_coosm_analysis_core or_ a).snd.wide = false →
        (rocsparse_coosm_analysis_core or_ a).snd.coo2csr_call =
          some { coo_row_ind := a.coo_row_ind, nnz := a.nnz, m := a.m, base := d.base }) ∧
      (rocsparse_coosm_analysis_core or_ a).snd.rowptr_bytes =
        (if (rocsparse_coosm_analysis_core or_ a).snd.wide then 8 else 4) *
          (a.m / 256 + 1) * 256 ∧
      (256 : Int) ∣ (a.m / 256 + 1) * 256 ∧
      a.m + 1 ≤ (a.m / 256 + 1) * 256 := by
  have hdvd : (256 : Int) ∣ (a.m / 256 + 1) * 256 := ⟨a.m / 256 + 1, by ring⟩
  have hcover : a.m + 1 ≤ (a.m / 256 + 1) * 256 := by omega
  have hcore : rocsparse_coosm_analysis_core or_ a =
      (if a.idx32 = true ∧ a.nnz < 2147483647
        then rocsparse_coosm_analysis_core_branch or_ false a d
        else rocsparse_coosm_analysis_core_branch or_ true a d) := by
    unfold rocsparse_coosm_analysis_core
    rw [hd]
  rw [hcore]
  by_cases hg : a.idx32 = true ∧ a.nnz < 2147483647
  · rw [if_pos hg]
    obtain ⟨hw, hb, hc⟩ := coosm_core_branch_trace or_ false a d
    rw [hw, hb, hc]
    refine ⟨by simp [hg], ?_, by simp, hdvd, hcover⟩
    intro _
    rw [int32cast_eq_self a.nnz h0 hg.2]
    simp
  · rw [if_neg hg]
    obtain ⟨hw, hb, hc⟩ := coosm_core_branch_trace or_ true a d
    rw [hw, hb, hc]
    refine ⟨by simp [hg], ?_, by simp, hdvd, hcover⟩
    intro hwf
    exact absurd hwf (by decide)

/-- Witness for C8 at a concrete input on the narrow path. -/
theorem coosm_core_narrow_guard_and_padding_witness :
    ((rocsparse_coosm_analysis_core trivialOracles validArgs).snd.wide = false ↔
        (validArgs.idx32 = true ∧ validArgs.nnz < 2147483647)) ∧
      ((rocsparse_coosm_analysis_core trivialOracles validArgs).snd.wide = false →
        (rocsparse_coosm_analysis_core trivialOracles validArgs).snd.coo2csr_call =
          some { coo_row_ind := validArgs.coo_row_ind, nnz := validArgs.nnz,
                 m := validArgs.m, base := generalDescr.base }) ∧
      (rocsparse_coosm_analysis_core trivialOracles validArgs).snd.rowptr_bytes =
        (if (rocsparse_coosm_analysis_core trivialOracles validArgs).snd.wide then 8 else 4) *
          (validArgs.m / 256 + 1) * 256 ∧
      (256 : Int) ∣ (validArgs.m / 256 + 1) * 256 ∧
      validArgs.m + 1 ≤ (validArgs.m / 256 + 1) * 256 :=
  coosm_core_narrow_guard_and_padding trivialOracles validArgs generalDescr
    (by decide) (by decide) (by decide)

theorem foldr_max_le_of_mem {f : Nat → Nat} {l : List Nat} {j : Nat} (h : j ∈ l) :
    f j ≤ l.foldr (fun k mx => max (f k) mx) 0 := by
  induction l with
  | nil => cases h
  | cons a t ih =>
    rcases List.mem_cons.mp h with rfl | h
    · exact le_max_left _ _
    · exact le_trans (ih h) (le_max_right _ _)

theorem foldr_max_congr {f g : Nat → Nat} :
    ∀ {l : List Nat}, (∀ j ∈ l, f j = g j) →
      l.foldr (fun k mx => max (f k) mx) 0 = l.foldr (fun k mx => max (g k) mx) 0 := by
  intro l
  induction l with
  | nil => intro _; rfl
  | cons a t ih =>
    intro h
    simp only [List.foldr_cons]
    rw [h a (List.mem_cons_self a t), ih (fun j hj => h j (List.mem_cons_of_mem a hj))]

theorem mem_rowDeps_lower {i j : Nat} {row : List Nat}
    (h : j ∈ rowDeps rocsparse_fill_mode.lower i row) : j < i ∧ j ∈ row := by
  unfold rowDeps at h
  have := List.mem_filter.mp h
  exact ⟨by simpa using this.2, this.1⟩

theorem mem_rowDeps_upper {i j : Nat} {row : List Nat}
    (h : j ∈ rowDeps rocsparse_fill_mode.upper i row) : i < j ∧ j ∈ row := by
  unfold rowDeps at h
  have := List.mem_filter.mp h
  exact ⟨by simpa using this.2, this.1⟩

theorem levelThreshold_pos (fill : rocsparse_fill_mode) (n i : Nat) :
    1 ≤ levelThreshold fill n i := by
  cases fill
  · simp only [levelThreshold]; omega
  · simp only [levelThreshold]; omega

theorem levelFuel_eq_of_threshold (fill : rocsparse_fill_mode) (rows : List (List Nat)) :
    ∀ f1 f2 i : Nat, levelThreshold fill rows.length i ≤ f1 →
      levelThreshold fill rows.length i ≤ f2 →
      levelFuel fill rows f1 i = levelFuel fill rows f2 i := by
  intro f1
  induction f1 with
  | zero =>
    intro f2 i ht1 _
    exact absurd (le_trans (levelThreshold_pos fill rows.length i) ht1) (by omega)
  | succ g ih =>
    intro f2 i ht1 ht2
    cases f2 with
    | zero =>
      exact absurd (le_trans (levelThreshold_pos fill rows.length i) ht2) (by omega)
    | succ h =>
      show 1 + (rowDeps fill i (rows.getD i [])).foldr
            (fun j mx => max (levelFuel fill rows g j) mx) 0 =
          1 + (rowDeps fill i (rows.getD i [])).foldr
            (fun j mx => max (levelFuel fill rows h j) mx) 0
      congr 1
      apply foldr_max_congr
      intro j hj
      cases fill with
      | lower =>
        have hji := (mem_rowDeps_lower hj).1
        have hthr : levelThreshold rocsparse_fill_mode.lower rows.length j = j + 1 := rfl
        simp only [levelThreshold] at ht1 ht2
        exact ih h j (by omega) (by omega)
      | upper =>
        by_cases hin : rows.length ≤ i
        · rw [List.getD_eq_default rows [] hin] at hj
          simp [rowDeps] at hj
        · have hji := (mem_rowDeps_upper hj).1
          have hthr : levelThreshold rocsparse_fill_mode.upper rows.length j =
              rows.length + 1 - min j rows.length := rfl
          simp only [levelThreshold] at ht1 ht2
          exact ih h j (by omega) (by omega)

theorem wf_col_lt {rows : List (List Nat)} (hwf : patternWellFormed rows) {i j : Nat}
    (hi : i < rows.length) (hj : j ∈ rows.getD i []) : j < rows.length := by
  have hmem : rows.getD i [] ∈ rows := by
    rw [List.getD_eq_getElem rows [] hi]
    exact List.getElem_mem hi
  exact hwf _ hmem _ hj

/-- Claim C7: for a triangular sparsity pattern, the level-schedule
builder assigns every row i the level satisfying
ℓ(i) = 1 + max over columns j of row i strictly before i in solve
order (j < i for lower fill mode, j > i for upper) of ℓ(j), with
ℓ(i) = 1 when the row has no dependency (the max over no dependencies
being 0); this assignment is the unique — hence the minimum —
solution of the recurrence, and every row a row depends on lies in a
strictly smaller level. -/
theorem level_schedule_builder_spec (fill : rocsparse_fill_mode)
    (rows : List (List Nat)) (hwf : patternWellFormed rows) :
    (∀ i, i < rows.length →
       levelOf fill rows i =
         1 + (rowDeps fill i (rows.getD i [])).foldr
               (fun j mx => max (levelOf fill rows j) mx) 0) ∧
    (∀ i, i < rows.length → ∀ j ∈ rowDeps fill i (rows.getD i []),
       levelOf fill rows j < levelOf fill rows i) ∧
    (∀ lvl : Nat → Nat,
       (∀ k, k < rows.length →
          lvl k = 1 + (rowDeps fill k (rows.getD k [])).foldr
                        (fun j mx => max (lvl j) mx) 0) →
       ∀ i, i < rows.length → lvl i = levelOf fill rows i) := by
  have hfix : ∀ i, i < rows.length →
      levelOf fill rows i =
        1 + (rowDeps fill i (rows.getD i [])).foldr
              (fun j mx => max (levelOf fill rows j) mx) 0 := by
    intro i hi
    show 1 + (rowDeps fill i (rows.getD i [])).foldr
          (fun j mx => max (levelFuel fill rows rows.length j) mx) 0 = _
    congr 1
    apply foldr_max_congr
    intro j hj
    cases fill with
    | lower =>
      have hji := (mem_rowDeps_lower hj).1
      apply levelFuel_eq_of_threshold
      · simp only [levelThreshold]; omega
      · simp only [levelThreshold]; omega
    | upper =>
      have hji := (mem_rowDeps_upper hj).1
      have hjn := wf_col_lt hwf hi (mem_rowDeps_upper hj).2
      apply levelFuel_eq_of_threshold
      · simp only [levelThreshold]; omega
      · simp only [levelThreshold]; omega
  refine ⟨hfix, ?_, ?_⟩
  · intro i hi j hj
    have hle := foldr_max_le_of_mem (f := levelOf fill rows) hj
    rw [hfix i hi]
    omega
  · intro lvl hlvl
    cases fill with
    | lower =>
      intro i
      induction i using Nat.strong_induction_on with
      | _ i ih =>
        intro hi
        rw [hlvl i hi, hfix i hi]
        congr 1
        apply foldr_max_congr
        intro j hj
        have hji := (mem_rowDeps_lower hj).1
        exact ih j hji (lt_trans hji hi)
    | upper =>
      have key : ∀ k i, rows.length - i ≤ k → i < rows.length →
          lvl i = levelOf rocsparse_fill_mode.upper rows i := by
        intro k
        induction k with
        | zero => intro i hk hi; omega
        | succ k ih =>
          intro i hk hi
          rw [hlvl i hi, hfix i hi]
          congr 1
          apply foldr_max_congr
          intro j hj
          have hji := (mem_rowDeps_upper hj).1
          have hjn := wf_col_lt hwf hi (mem_rowDeps_upper hj).2
          exact ih j (by omega) hjn
      intro i hi
      exact key rows.length i (by omega) hi

/-- Witness for C7: the level recurrence holds at row 2 of the spec's
Scenario 1 lower-triangular pattern. -/
theorem level_schedule_builder_spec_witness :
    patternWellFormed scenarioRows ∧
      levelOf rocsparse_fill_mode.lower scenarioRows 2 =
        1 + (rowDeps rocsparse_fill_mode.lower 2 (scenarioRows.getD 2 [])).foldr
              (fun j mx => max (levelOf rocsparse_fill_mode.lower scenarioRows j) mx) 0 :=
  ⟨by decide,
   (level_schedule_builder_spec rocsparse_fill_mode.lower scenarioRows (by decide)).1 2
     (by decide)⟩

theorem sorted_nodup_chain_lt {l : List Int} (hs : List.Sorted (· ≤ ·) l)
    (hn : l.Nodup) : List.Chain' (· < ·) l := by
  have hp : List.Pairwise (fun a b : Int => a ≤ b ∧ a ≠ b) l := hs.and hn
  exact (hp.imp (fun h => lt_of_le_of_ne h.1 h.2)).chain'

theorem init_index_loop_spec (rng : Nat → Nat) (start endv : Int) (cnt : Nat) :
    ∀ f pos acc out pos1,
      rocsparse_init_index_loop rng start endv cnt f pos acc = some (out, pos1) →
      acc.Nodup → (∀ v ∈ acc, start ≤ v ∧ v < endv) →
      out.Nodup ∧ List.Sorted (· ≤ ·) out ∧ (∀ v ∈ out, start ≤ v ∧ v < endv) ∧
        out.length = cnt := by
  intro f
  induction f with
  | zero =>
    intro pos acc out pos1 h
    simp [rocsparse_init_index_loop] at h
  | succ f ih =>
    intro pos acc out pos1 h hnd hbd
    unfold rocsparse_init_index_loop at h
    by_cases h1 : acc.length = cnt
    · rw [if_pos h1] at h
      simp only [Option.some.injEq, Prod.mk.injEq] at h
      obtain ⟨ho, -⟩ := h
      have hperm := List.perm_insertionSort (· ≤ ·) acc
      subst ho
      refine ⟨hperm.nodup_iff.mpr hnd, List.sorted_insertionSort (· ≤ ·) acc, ?_, ?_⟩
      · intro v hv
        exact hbd v (hperm.mem_iff.mp hv)
      · rw [List.length_insertionSort]
        exact h1
    · rw [if_neg h1] at h
      by_cases h2 : endv - start ≤ 0
      · rw [if_pos h2] at h
        cases h
      · rw [if_neg h2] at h
        have hpos : 0 < endv - start := by omega
        have hv0 : 0 ≤ (rng pos : Int) % (endv - start) :=
          Int.emod_nonneg _ (by omega)
        have hv1 : (rng pos : Int) % (endv - start) < endv - start :=
          Int.emod_lt_of_pos _ hpos
        by_cases h3 : start + (rng pos : Int) % (endv - start) ∈ acc
        · rw [if_pos h3] at h
          exact ih (pos + 1) acc out pos1 h hnd hbd
        · rw [if_neg h3] at h
          refine ih (pos + 1) _ out pos1 h ?_ ?_
          · rw [List.nodup_append]
            exact ⟨hnd, List.nodup_singleton _, List.disjoint_singleton.mpr h3⟩
          · intro v hv
            rcases List.mem_append.mp hv with hv | hv
            · exact hbd v hv
            · rcases List.mem_singleton.mp hv with rfl
              constructor <;> omega

theorem init_csr_cols_spec (rng : Nat → Nat) (ncol : Int) (fuel : Nat) :
    ∀ cnts pos rows pos1,
      rocsparse_init_csr_cols rng ncol fuel cnts pos = some (rows, pos1) →
      rows.length = cnts.length ∧
        ∀ r ∈ rows, List.Chain' (· < ·) r ∧ ∀ v ∈ r, 0 ≤ v ∧ v ≤ ncol - 2 := by
  intro cnts
  induction cnts with
  | nil =>
    intro pos rows pos1 h
    unfold rocsparse_init_csr_cols at h
    simp only [Option.some.injEq, Prod.mk.injEq] at h
    obtain ⟨ho, -⟩ := h
    subst ho
    exact ⟨rfl, by intro r hrm; cases hrm⟩
  | cons c cs ih =>
    intro pos rows pos1 h
    unfold rocsparse_init_csr_cols at h
    cases he : rocsparse_init_index rng 0 (ncol - 1) c fuel pos with
    | none =>
      rw [he] at h
      exact absurd h (by simp)
    | some xp =>
      obtain ⟨xs, p1⟩ := xp
      rw [he] at h
      dsimp only at h
      cases hrec : rocsparse_init_csr_cols rng ncol fuel cs p1 with
      | none =>
        rw [hrec] at h
        exact absurd h (by simp)
      | some rp =>
        obtain ⟨rest, p2⟩ := rp
        rw [hrec] at h
        simp only [Option.some.injEq, Prod.mk.injEq] at h
        obtain ⟨ho, -⟩ := h
        subst ho
        unfold rocsparse_init_index at he
        obtain ⟨hnd, hsort, hbd, hlen⟩ :=
          init_index_loop_spec rng 0 (ncol - 1) c fuel pos [] xs p1 he
            List.nodup_nil (by intro v hv; cases hv)
        obtain ⟨ihlen, ihrows⟩ := ih p1 rest p2 hrec
        refine ⟨by simp [ihlen], ?_⟩
        intro r hrm
        rcases List.mem_cons.mp hrm with rfl | hrm
        · refine ⟨sorted_nodup_chain_lt hsort hnd, ?_⟩
          intro v hv
          have := hbd v hv
          constructor <;> omega
        · exact ihrows r hrm

theorem sorted_head_le {l : List Nat} (hs : List.Sorted (· ≤ ·) l) {x : Nat}
    (hx : x ∈ l) : l.getD 0 0 ≤ x := by
  cases l with
  | nil => cases hx
  | cons a t =>
    rcases List.mem_cons.mp hx with rfl | hx
    · simp
    · simpa using List.rel_of_pairwise_cons hs hx

theorem sorted_getD_mono {l : List Nat} (hs : List.Sorted (· ≤ ·) l) {i j : Nat}
    (hij : i ≤ j) (hj : j < l.length) : l.getD i 0 ≤ l.getD j 0 := by
  rcases eq_or_lt_of_le hij with rfl | hlt
  · exact le_refl _
  · have hi : i < l.length := lt_trans hlt hj
    have := List.pairwise_iff_get.mp hs ⟨i, hi⟩ ⟨j, hj⟩ (Fin.mk_lt_mk.mpr hlt)
    rw [List.getD_eq_getElem l 0 hi, List.getD_eq_getElem l 0 hj]
    exact this

theorem mem_getD_of_lt {l : List Nat} {i : Nat} (hi : i < l.length) :
    l.getD i 0 ∈ l := by
  rw [List.getD_eq_getElem l 0 hi]
  exact List.getElem_mem hi

theorem init_csr_ptr_spec (rng : Nat → Nat) (nrow nnz pos : Nat) (ptr : List Nat)
    (pos1 : Nat) (h1 : 1 ≤ nrow) (h2 : 2 ≤ nnz)
    (h : rocsparse_init_csr_ptr rng nrow nnz pos = some (ptr, pos1)) :
    ptr.getD 0 0 = 0 ∧ ptr.getD nrow 0 = nnz ∧ ptr.length = nrow + 1 ∧
      (∀ k, k < nrow → ptr.getD k 0 ≤ ptr.getD (k + 1) 0) := by
  unfold rocsparse_init_csr_ptr at h
  rw [if_neg (by omega), if_neg (by omega)] at h
  dsimp only at h
  simp only [Option.some.injEq, Prod.mk.injEq] at h
  obtain ⟨hptr, -⟩ := h
  subst hptr
  set interior := (List.range (nrow - 1)).map (fun k => rng (pos + k) % (nnz - 1) + 1)
    with hint
  set raw : List Nat := 0 :: (interior ++ [nnz]) with hraw
  have hsort := List.sorted_insertionSort (· ≤ ·) raw
  have hperm := List.perm_insertionSort (· ≤ ·) raw
  have hlen : (raw.insertionSort (· ≤ ·)).length = nrow + 1 := by
    rw [List.length_insertionSort, hraw]
    simp [hint]
    omega
  have hub : ∀ x ∈ raw, x ≤ nnz := by
    intro x hx
    rw [hraw] at hx
    rcases List.mem_cons.mp hx with rfl | hx
    · omega
    rcases List.mem_append.mp hx with hx | hx
    · rw [hint] at hx
      obtain ⟨k, -, rfl⟩ := List.mem_map.mp hx
      have := Nat.mod_lt (rng (pos + k)) (y := nnz - 1) (by omega)
      omega
    · rcases List.mem_singleton.mp hx with rfl
      exact le_refl _
  have h0mem : (0 : Nat) ∈ raw := by rw [hraw]; exact List.mem_cons_self _ _
  have hnmem : nnz ∈ raw := by
    rw [hraw]
    exact List.mem_cons_of_mem _ (List.mem_append_right _ (List.mem_singleton.mpr rfl))
  refine ⟨?_, ?_, hlen, ?_⟩
  · have := sorted_head_le hsort (hperm.mem_iff.mpr h0mem)
    omega
  · have hup : (raw.insertionSort (· ≤ ·)).getD nrow 0 ≤ nnz := by
      refine hub _ (hperm.mem_iff.mp (mem_getD_of_lt ?_))
      omega
    have hlo : nnz ≤ (raw.insertionSort (· ≤ ·)).getD nrow 0 := by
      obtain ⟨idx, hidx⟩ := List.mem_iff_get.mp (hperm.mem_iff.mpr hnmem)
      have hmono := sorted_getD_mono hsort (i := idx.1) (j := nrow)
        (by omega) (by omega)
      rw [List.getD_eq_getElem _ 0 idx.2] at hmono
      rw [← hidx]
      exact hmono
    omega
  · intro k hk
    exact sorted_getD_mono hsort (by omega) (by omega)

/-- Claim C10: for nrow ≥ 1 and nnz ≥ 2, whenever rocsparse_init_csr
succeeds (every row's sample terminates), the produced row-pointer
array has ptr[0] = 0, ptr[nrow] = nnz and is non-decreasing, and
within each row the column indices are strictly increasing (hence
distinct) and drawn from [0, ncol - 2]: the last column ncol - 1 is
never generated because rocsparse_init_index samples [start, end) with
end = ncol - 1. -/
theorem rocsparse_init_csr_spec (rng : Nat → Nat) (nrow ncol nnz fuel : Nat)
    (ptr : List Nat) (rows : List (List Int))
    (h1 : 1 ≤ nrow) (h2 : 2 ≤ nnz)
    (h : rocsparse_init_csr rng nrow ncol nnz fuel = some (ptr, rows)) :
    ptr.getD 0 0 = 0 ∧ ptr.getD nrow 0 = nnz ∧ ptr.length = nrow + 1 ∧
      (∀ k, k < nrow → ptr.getD k 0 ≤ ptr.getD (k + 1) 0) ∧
      rows.length = nrow ∧
      (∀ r ∈ rows, List.Chain' (· < ·) r ∧ ∀ v ∈ r, 0 ≤ v ∧ v ≤ (ncol : Int) - 2) := by
  unfold rocsparse_init_csr at h
  cases hp : rocsparse_init_csr_ptr rng nrow nnz 0 with
  | none =>
    rw [hp] at h
    exact absurd h (by simp)
  | some pp =>
    obtain ⟨ptr0, pos0⟩ := pp
    rw [hp] at h
    dsimp only at h
    cases hc : rocsparse_init_csr_cols rng (ncol : Int) fuel
        ((List.range nrow).map (fun i => ptr0.getD (i + 1) 0 - ptr0.getD i 0)) pos0 with
    | none =>
      rw [hc] at h
      exact absurd h (by simp)
    | some rp =>
      obtain ⟨rows0, pos2⟩ := rp
      rw [hc] at h
      simp only [Option.some.injEq, Prod.mk.injEq] at h
      obtain ⟨hpe, hre⟩ := h
      subst hpe
      subst hre
      obtain ⟨ha, hb, hlen, hmono⟩ := init_csr_ptr_spec rng nrow nnz 0 ptr0 pos0 h1 h2 hp
      obtain ⟨hclen, hcrows⟩ := init_csr_cols_spec rng (ncol : Int) fuel _ pos0 rows0 pos2 hc
      refine ⟨ha, hb, hlen, hmono, ?_, hcrows⟩
      rw [hclen]
      simp

/-- Witness for C10 at a concrete rand() stream: nrow = 2, ncol = 4,
nnz = 3 produce ptr = [0,1,3] with rows [1] and [0,2]. -/
theorem rocsparse_init_csr_spec_witness :
    (1 ≤ 2 ∧ 2 ≤ 3) ∧
      ([0, 1, 3] : List Nat).getD 0 0 = 0 ∧
      ([0, 1, 3] : List Nat).getD 2 0 = 3 ∧
      ([0, 1, 3] : List Nat).length = 2 + 1 ∧
      (∀ k, k < 2 →
        ([0, 1, 3] : List Nat).getD k 0 ≤ ([0, 1, 3] : List Nat).getD (k + 1) 0) ∧
      ([[1], [0, 2]] : List (List Int)).length = 2 ∧
      (∀ r ∈ ([[1], [0, 2]] : List (List Int)), List.Chain' (· < ·) r ∧
        ∀ v ∈ r, 0 ≤ v ∧ v ≤ (4 : Int) - 2) :=
  ⟨⟨by decide, by decide⟩,
   rocsparse_init_csr_spec (fun k => k) 2 4 3 16 [0, 1, 3] [[1], [0, 2]]
     (by decide) (by decide) (by decide)⟩

theorem sum_map_add_nat {α : Type} (l : List α) (f g : α → Nat) :
    (l.map (fun x => f x + g x)).sum = (l.map f).sum + (l.map g).sum := by
  induction l with
  | nil => rfl
  | cons a t ih =>
    simp only [List.map_cons, List.sum_cons, ih]
    omega

theorem sum_flatMap_nat {α : Type} (l : List α) (f : α → List Nat) :
    (l.flatMap f).sum = (l.map (fun a => (f a).sum)).sum := by
  induction l with
  | nil => rfl
  | cons a t ih =>
    rw [List.flatMap_cons, List.sum_append, List.map_cons, List.sum_cons, ih]

theorem sum_map_range_const (d c : Nat) :
    ((List.range d).map (fun _ => c)).sum = d * c := by
  rw [List.map_const', List.sum_replicate, List.length_range, smul_eq_mul]

theorem sum_ite_ne_zero_c (d c : Nat) (h : 1 ≤ d) :
    ((List.range d).map (fun j => if j ≠ 0 then c else 0)).sum = (d - 1) * c := by
  obtain ⟨e, rfl⟩ : ∃ e, d = e + 1 := ⟨d - 1, by omega⟩
  rw [List.range_succ_eq_map, List.map_cons, List.map_map, List.sum_cons]
  have hc : (List.range e).map ((fun j => if j ≠ 0 then c else 0) ∘ Nat.succ)
      = (List.range e).map (fun _ => c) := by
    apply List.map_congr_left
    intro x _
    simp [Function.comp]
  rw [hc, sum_map_range_const]
  simp

theorem sum_ite_ne_last_c (d c : Nat) (h : 1 ≤ d) :
    ((List.range d).map (fun j => if j ≠ d - 1 then c else 0)).sum = (d - 1) * c := by
  obtain ⟨e, rfl⟩ : ∃ e, d = e + 1 := ⟨d - 1, by omega⟩
  rw [List.range_succ, List.map_append, List.sum_append]
  have hc : (List.range e).map (fun j => if j ≠ e + 1 - 1 then c else 0)
      = (List.range e).map (fun _ => c) := by
    apply List.map_congr_left
    intro x hx
    have := List.mem_range.mp hx
    simp only [Nat.add_sub_cancel]
    rw [if_pos (by omega)]
  rw [hc, sum_map_range_const]
  simp

theorem lap_row_entries_length (d : Nat) (b : Int) (i j : Nat) :
    (lap_row_entries d b i j).length =
      (1 + (if i ≠ 0 then 1 else 0)) + ((if j ≠ 0 then (1 : Nat) else 0) +
        ((if j ≠ d - 1 then (1 : Nat) else 0) + (if i ≠ d - 1 then 1 else 0))) := by
  unfold lap_row_entries
  dsimp only
  split_ifs <;> simp

theorem lap_block_sum (d : Nat) (b : Int) (h : 1 ≤ d) (i : Nat) :
    ((List.range d).map (fun j => (lap_row_entries d b i j).length)).sum =
      d + (if i ≠ 0 then d else 0) + 2 * (d - 1) + (if i ≠ d - 1 then d else 0) := by
  have hcong : (List.range d).map (fun j => (lap_row_entries d b i j).length)
      = (List.range d).map (fun j =>
          (1 + (if i ≠ 0 then 1 else 0)) + ((if j ≠ 0 then (1 : Nat) else 0) +
            ((if j ≠ d - 1 then (1 : Nat) else 0) + (if i ≠ d - 1 then 1 else 0)))) := by
    apply List.map_congr_left
    intro j _
    exact lap_row_entries_length d b i j
  rw [hcong]
  simp only [sum_map_add_nat, sum_map_range_const]
  rw [sum_ite_ne_zero_c d 1 h, sum_ite_ne_last_c d 1 h]
  by_cases h0 : i = 0 <;> by_cases hl : i = d - 1 <;> simp [h0, hl] <;> omega

theorem lap_rows_length (d : Nat) (b : Int) : (lap_rows d b).length = d * d := by
  unfold lap_rows
  rw [List.length_flatMap]
  have hc : (List.range d).map
        (List.length ∘ fun i => (List.range d).map (lap_row_entries d b i))
      = (List.range d).map (fun _ => d) := by
    apply List.map_congr_left
    intro i _
    simp [Function.comp]
  rw [hc, sum_map_range_const]

theorem lap_total_len (d : Nat) (b : Int) (h : 1 ≤ d) :
    ((lap_rows d b).map List.length).sum + 4 * d = 5 * (d * d) := by
  unfold lap_rows
  rw [List.map_flatMap, sum_flatMap_nat]
  have hc : (List.range d).map
        (fun i => (((List.range d).map (lap_row_entries d b i)).map List.length).sum)
      = (List.range d).map
          (fun i => d + (if i ≠ 0 then d else 0) + 2 * (d - 1) +
            (if i ≠ d - 1 then d else 0)) := by
    apply List.map_congr_left
    intro i _
    rw [List.map_map]
    exact lap_block_sum d b h i
  rw [hc]
  simp only [sum_map_add_nat, sum_map_range_const]
  rw [sum_ite_ne_zero_c d d h, sum_ite_ne_last_c d d h]
  obtain ⟨e, rfl⟩ : ∃ e, d = e + 1 := ⟨d - 1, by omega⟩
  simp only [Nat.add_sub_cancel]
  ring

theorem lap_rowptr_getD (d : Nat) (b : Int) (k : Nat) (hk : k < d * d + 1) :
    (lap_rowptr d b).getD k 0 =
      ((((lap_rows d b).take k).map List.length).sum : Int) + b := by
  unfold lap_rowptr
  rw [List.getD_eq_getElem _ 0 (by simpa using hk), List.getElem_map, List.getElem_range]

theorem lap_row_cols_chain (d : Nat) (b : Int) (i j : Nat) (hi : i < d) (hj : j < d) :
    List.Chain' (· < ·) ((lap_row_entries d b i j).map Prod.fst) := by
  unfold lap_row_entries
  dsimp only
  split_ifs <;> simp [List.chain'_cons] <;> omega

theorem lap_row_diag_mem (d : Nat) (b : Int) (i j : Nat) :
    (((i : Int) * d + j) + b, (4 : Int)) ∈ lap_row_entries d b i j := by
  unfold lap_row_entries
  dsimp only
  split_ifs <;> simp

theorem lap_row_offdiag (d : Nat) (b : Int) (i j : Nat) (hi : i < d) (_hj : j < d) :
    ∀ p ∈ lap_row_entries d b i j,
      p = (((i : Int) * d + j) + b, (4 : Int)) ∨
        (p.1 ≠ ((i : Int) * d + j) + b ∧ p.2 = -1) := by
  intro p hp
  unfold lap_row_entries at hp
  dsimp only at hp
  have hmem : p = ((i : Int) * d + j - d + b, (-1 : Int)) ∨
      p = ((i : Int) * d + j - 1 + b, (-1 : Int)) ∨
      p = ((i : Int) * d + j + b, (4 : Int)) ∨
      p = ((i : Int) * d + j + 1 + b, (-1 : Int)) ∨
      p = ((i : Int) * d + j + (d : Int) + b, (-1 : Int)) := by
    split_ifs at hp <;> simp at hp <;> tauto
  rcases hmem with rfl | rfl | rfl | rfl | rfl
  · right
    refine ⟨?_, rfl⟩
    simp only []
    omega
  · right
    refine ⟨?_, rfl⟩
    simp only []
    omega
  · left
    rfl
  · right
    refine ⟨?_, rfl⟩
    simp only []
    omega
  · right
    refine ⟨?_, rfl⟩
    simp only []
    omega

/-- Claim C9: for ndim ≥ 1, gen_2d_laplacian returns n = ndim² and
fills exactly nnz = 5·ndim² − 4·ndim column/value entries; the
produced rowptr has length n + 1 with rowptr[0] = idx_base and
rowptr[n] = nnz + idx_base and is non-decreasing; within each grid
row (i, j) — row number i·ndim + j — the column indices are strictly
increasing, the diagonal column (row number + idx_base) is present
with value 4 and every other entry has value −1; for ndim = 0 the
function returns 0 leaving the caller's arrays untouched. -/
theorem gen_2d_laplacian_spec (ndim : Nat) (base : Int) (r0 c0 v0 : List Int)
    (h : 1 ≤ ndim) :
    gen_2d_laplacian 0 base r0 c0 v0 = (0, r0, c0, v0) ∧
    (gen_2d_laplacian ndim base r0 c0 v0).1 = ndim * ndim ∧
    (gen_2d_laplacian ndim base r0 c0 v0).2.2.1.length = 5 * (ndim * ndim) - 4 * ndim ∧
    (gen_2d_laplacian ndim base r0 c0 v0).2.2.2.length = 5 * (ndim * ndim) - 4 * ndim ∧
    (gen_2d_laplacian ndim base r0 c0 v0).2.1.length = ndim * ndim + 1 ∧
    (gen_2d_laplacian ndim base r0 c0 v0).2.1.getD 0 0 = base ∧
    (gen_2d_laplacian ndim base r0 c0 v0).2.1.getD (ndim * ndim) 0 =
      ((5 * (ndim * ndim) - 4 * ndim : Nat) : Int) + base ∧
    (∀ k, k < ndim * ndim →
      (gen_2d_laplacian ndim base r0 c0 v0).2.1.getD k 0 ≤
        (gen_2d_laplacian ndim base r0 c0 v0).2.1.getD (k + 1) 0) ∧
    (∀ i j, i < ndim → j < ndim →
      List.Chain' (· < ·) ((lap_row_entries ndim base i j).map Prod.fst)) ∧
    (∀ i j, i < ndim → j < ndim →
      (((i : Int) * ndim + j) + base, (4 : Int)) ∈ lap_row_entries ndim base i j) ∧
    (∀ i j, i < ndim → j < ndim → ∀ p ∈ lap_row_entries ndim base i j,
      p = (((i : Int) * ndim + j) + base, (4 : Int)) ∨
        (p.1 ≠ ((i : Int) * ndim + j) + base ∧ p.2 = -1)) ∧
    (gen_2d_laplacian ndim base r0 c0 v0).2.2.1 =
      ((lap_rows ndim base).flatten).map Prod.fst := by
  have hne : ¬ ndim = 0 := by omega
  have htot := lap_total_len ndim base h
  have hrl := lap_rows_length ndim base
  have hflat : ((lap_rows ndim base).flatten).length
      = ((lap_rows ndim base).map List.length).sum := List.length_flatten _
  refine ⟨by simp [gen_2d_laplacian], by simp [gen_2d_laplacian, hne], ?_, ?_, ?_,
          ?_, ?_, ?_,
          fun i j hi hj => lap_row_cols_chain ndim base i j hi hj,
          fun i j _ _ => lap_row_diag_mem ndim base i j,
          fun i j hi hj => lap_row_offdiag ndim base i j hi hj,
          by simp [gen_2d_laplacian, hne]⟩
  · simp only [gen_2d_laplacian, if_neg hne]
    rw [List.length_map, hflat]
    omega
  · simp only [gen_2d_laplacian, if_neg hne]
    rw [List.length_map, hflat]
    omega
  · simp [gen_2d_laplacian, hne, lap_rowptr]
  · simp only [gen_2d_laplacian, if_neg hne]
    rw [lap_rowptr_getD ndim base 0 (by omega)]
    simp
  · simp only [gen_2d_laplacian, if_neg hne]
    rw [lap_rowptr_getD ndim base (ndim * ndim) (by omega)]
    have htake : (lap_rows ndim base).take (ndim * ndim) = lap_rows ndim base := by
      rw [← hrl]
      exact List.take_length _
    rw [htake]
    have hsum : ((lap_rows ndim base).map List.length).sum
        = 5 * (ndim * ndim) - 4 * ndim := by omega
    rw [hsum]
  · intro k hk
    simp only [gen_2d_laplacian, if_neg hne]
    rw [lap_rowptr_getD ndim base k (by omega),
        lap_rowptr_getD ndim base (k + 1) (by omega),
        List.map_take, List.map_take]
    have hklen : k < ((lap_rows ndim base).map List.length).length := by
      rw [List.length_map, hrl]
      exact hk
    rw [List.sum_take_succ _ k hklen]
    omega

/-- Witness for C9 at ndim = 2, base = 1: the final row pointer equals
the filled entry count 12 plus the base. -/
theorem gen_2d_laplacian_spec_witness :
    (gen_2d_laplacian 2 1 [] [] []).2.1.getD (2 * 2) 0 =
      ((5 * (2 * 2) - 4 * 2 : Nat) : Int) + 1 :=
  (gen_2d_laplacian_spec 2 1 [] [] [] (by decide)).2.2.2.2.2.2.1
